import Mathlib

/-!
Verification of the Story2Test generation pipeline (`src/streamlit_app.py`).

The pipeline's non-UI logic is embedded shallowly:
  * `Json` models Python values produced by `json.loads` (numbers are
    modelled as integers; floats do not appear in any property checked here).
  * `json_loads` models the strict parse `json.loads(text)`: it either
    returns a value after consuming the whole text (up to surrounding
    whitespace) or fails, which models the raised `JSONDecodeError`.
  * `braceSpan` models `re.search(r'(\{.*\})', text, re.S)`: the span from
    the first opening brace to the last closing brace, when the latter
    comes after the former.
  * `extract_json` is the fallback chain of the source function of the
    same name.
  * `rowOf` / `to_df` model the normalizer `to_df(items, kind)`; `Option`
    failure models a raised Python exception (`TypeError` from
    `"\n".join` on a non-iterable-of-str, `AttributeError` from `.get`
    on a non-dict).
  * `generateHandler` models the generate-button handler: the credential
    and empty-input guards, the model call (its outcome is passed in as
    an `Except`, since the network client is external), the parse check
    `"positive" not in parsed and "negative" not in parsed`, the two
    `to_df` calls, `pd.concat`, and the single write to
    `st.session_state['last_results']`.
-/

/-- Python values as returned by `json.loads`, restricted to what the JSON
grammar produces. Numbers are modelled as integers. -/
inductive Json where
  | null
  | bool (b : Bool)
  | num (n : Int)
  | str (s : String)
  | arr (items : List Json)
  | obj (fields : List (String × Json))
deriving Repr

mutual

/-- Structural equality on `Json`, modelling Python `==` on the values
`json.loads` can return (used by `in` on lists). -/
def Json.beq : Json → Json → Bool
  | .null, .null => true
  | .bool a, .bool b => a == b
  | .num a, .num b => a == b
  | .str a, .str b => a == b
  | .arr a, .arr b => Json.beqList a b
  | .obj a, .obj b => Json.beqFields a b
  | _, _ => false

/-- Pointwise `Json.beq` on lists. -/
def Json.beqList : List Json → List Json → Bool
  | [], [] => true
  | x :: xs, y :: ys => Json.beq x y && Json.beqList xs ys
  | _, _ => false

/-- Pointwise `Json.beq` on key-value lists. -/
def Json.beqFields : List (String × Json) → List (String × Json) → Bool
  | [], [] => true
  | (k1, v1) :: xs, (k2, v2) :: ys => k1 == k2 && Json.beq v1 v2 && Json.beqFields xs ys
  | _, _ => false

end

instance : BEq Json := ⟨Json.beq⟩

/-- JSON whitespace characters (the four accepted between tokens). -/
def isWs (c : Char) : Bool := c = ' ' || c = '\t' || c = '\n' || c = '\r'

/-- Drop leading JSON whitespace. -/
def skipWs : List Char → List Char
  | [] => []
  | c :: cs => if isWs c then skipWs cs else c :: cs

/-- Value of one hexadecimal digit. -/
def hexVal (c : Char) : Option Nat :=
  if '0' ≤ c ∧ c ≤ '9' then some (c.toNat - 48)
  else if 'a' ≤ c ∧ c ≤ 'f' then some (c.toNat - 87)
  else if 'A' ≤ c ∧ c ≤ 'F' then some (c.toNat - 55)
  else none

/-- Translation of a single-character JSON string escape. -/
def escChar (e : Char) : Option Char :=
  if e = '"' then some '"'
  else if e = '\\' then some '\\'
  else if e = '/' then some '/'
  else if e = 'n' then some '\n'
  else if e = 't' then some '\t'
  else if e = 'r' then some '\r'
  else if e = 'b' then some (Char.ofNat 8)
  else if e = 'f' then some (Char.ofNat 12)
  else none

/-- Body of a JSON string after the opening quote: the decoded characters
and the remainder after the closing quote. Raw control characters are
rejected, as in strict-mode `json.loads`. -/
def parseStringBody : List Char → Option (List Char × List Char)
  | [] => none
  | '"' :: rest => some ([], rest)
  | '\\' :: 'u' :: h1 :: h2 :: h3 :: h4 :: rest => do
    let a ← hexVal h1
    let b ← hexVal h2
    let c ← hexVal h3
    let d ← hexVal h4
    let (cs, r) ← parseStringBody rest
    some (Char.ofNat (((a * 16 + b) * 16 + c) * 16 + d) :: cs, r)
  | '\\' :: e :: rest => do
    let c ← escChar e
    let (cs, r) ← parseStringBody rest
    some (c :: cs, r)
  | c :: rest =>
    if c.toNat < 32 then none
    else do
      let (cs, r) ← parseStringBody rest
      some (c :: cs, r)

/-- Accumulate a decimal digit run into a natural number. -/
def digitsToNat (acc : Nat) : List Char → Nat
  | [] => acc
  | c :: cs => digitsToNat (acc * 10 + (c.toNat - 48)) cs

/-- Split off the leading run of decimal digits. -/
def spanDigits : List Char → List Char × List Char
  | [] => ([], [])
  | c :: cs =>
    if c.isDigit then
      let (ds, r) := spanDigits cs
      (c :: ds, r)
    else ([], c :: cs)

/-- Unsigned JSON integer: digit run with no leading zero, not followed by
a fraction or exponent (floats are outside the model). -/
def parseNumAbs (cs : List Char) : Option (Nat × List Char) :=
  match spanDigits cs with
  | ([], _) => none
  | (ds, r) =>
    if 1 < ds.length ∧ ds.head? = some '0' then none
    else
      match r with
      | '.' :: _ => none
      | 'e' :: _ => none
      | 'E' :: _ => none
      | _ => some (digitsToNat 0 ds, r)

/-- JSON integer with optional leading minus. -/
def parseNumber : List Char → Option (Int × List Char)
  | '-' :: rest => (parseNumAbs rest).map (fun p => (-(p.1 : Int), p.2))
  | cs => (parseNumAbs cs).map (fun p => ((p.1 : Int), p.2))

/-- Insert a key into an association list with Python-`dict` semantics:
an existing key is overwritten in place, a new key is appended. -/
def dictInsert (fields : List (String × Json)) (k : String) (v : Json) :
    List (String × Json) :=
  match fields with
  | [] => [(k, v)]
  | (k0, v0) :: rest =>
    if k0 = k then (k0, v) :: rest else (k0, v0) :: dictInsert rest k v

mutual

/-- One JSON value and the remaining input. Fuel bounds recursion depth;
`json_loads` supplies more fuel than any input can spend. -/
def parseValue : Nat → List Char → Option (Json × List Char)
  | 0, _ => none
  | fuel + 1, cs =>
    match skipWs cs with
    | 'n' :: 'u' :: 'l' :: 'l' :: rest => some (.null, rest)
    | 't' :: 'r' :: 'u' :: 'e' :: rest => some (.bool true, rest)
    | 'f' :: 'a' :: 'l' :: 's' :: 'e' :: rest => some (.bool false, rest)
    | '"' :: rest => (parseStringBody rest).map (fun p => (.str (String.mk p.1), p.2))
    | '[' :: rest =>
      (match skipWs rest with
       | ']' :: r2 => some (.arr [], r2)
       | r2 => (parseArrayItems fuel r2).map (fun p => (.arr p.1, p.2)))
    | '\x7b' :: rest =>
      (match skipWs rest with
       | '\x7d' :: r2 => some (.obj [], r2)
       | r2 => (parseObjectItems fuel r2).map
           (fun p => (.obj (p.1.foldl (fun acc kv => dictInsert acc kv.1 kv.2) []), p.2)))
    | rest => (parseNumber rest).map (fun p => (.num p.1, p.2))

/-- Comma-separated values up to the closing square bracket. -/
def parseArrayItems : Nat → List Char → Option (List Json × List Char)
  | 0, _ => none
  | fuel + 1, cs => do
    let (v, r) ← parseValue fuel cs
    match skipWs r with
    | ',' :: r2 => do
      let (vs, r3) ← parseArrayItems fuel r2
      some (v :: vs, r3)
    | ']' :: r2 => some ([v], r2)
    | _ => none

/-- Comma-separated `"key": value` pairs up to the closing curly bracket. -/
def parseObjectItems : Nat → List Char → Option (List (String × Json) × List Char)
  | 0, _ => none
  | fuel + 1, cs =>
    match skipWs cs with
    | '"' :: rest => do
      let (kcs, r) ← parseStringBody rest
      match skipWs r with
      | ':' :: r2 => do
        let (v, r3) ← parseValue fuel r2
        (match skipWs r3 with
         | ',' :: r4 => do
             let (fs, r5) ← parseObjectItems fuel r4
             some ((String.mk kcs, v) :: fs, r5)
         | '\x7d' :: r4 => some ([(String.mk kcs, v)], r4)
         | _ => none)
      | _ => none
    | _ => none

end

/-- Model of `json.loads(text)`: parse one value and require only
whitespace to remain; `none` models the raised `JSONDecodeError`. -/
def json_loads (s : String) : Option Json :=
  match parseValue (2 * s.length + 2) s.toList with
  | some (v, rest) => if (skipWs rest).isEmpty then some v else none
  | none => none

/-- Index of the first opening curly brace. -/
def firstBraceIdx : List Char → Option Nat
  | [] => none
  | c :: cs => if c = '\x7b' then some 0 else (firstBraceIdx cs).map (· + 1)

/-- Index of the last closing curly brace. -/
def lastCloseIdx : List Char → Option Nat
  | [] => none
  | c :: cs =>
    match lastCloseIdx cs with
    | some k => some (k + 1)
    | none => if c = '\x7d' then some 0 else none

/-- Model of `re.search(r'(\{.*\})', text, re.S)`: with the DOTALL greedy
pattern the match, when it exists, runs from the first opening brace to
the last closing brace, which must come strictly after it. -/
def braceSpan (cs : List Char) : Option (List Char) :=
  match firstBraceIdx cs, lastCloseIdx cs with
  | some i, some j => if i < j then some ((cs.drop i).take (j - i + 1)) else none
  | _, _ => none

/-- `extract_json` from `src/streamlit_app.py`: strict parse of the whole
text, else strict parse of the brace-delimited span, else the fallback
object carrying the raw text. Total by construction — the bare `except`
arms of the source mean the function never raises. -/
def extract_json (text : String) : Json :=
  match json_loads text with
  | some v => v
  | none =>
    match braceSpan text.toList with
    | some sub =>
      (match json_loads (String.mk sub) with
       | some v => v
       | none => Json.obj [("raw_text", Json.str text)])
    | none => Json.obj [("raw_text", Json.str text)]

/-- Key lookup on a parsed object; `none` when the value is not an object
or the key is missing. Parsed objects have unique keys (`dictInsert`),
so first match agrees with Python `dict` lookup. -/
def Json.lookup (j : Json) (k : String) : Option Json :=
  match j with
  | .obj fields => fields.lookup k
  | _ => none

/-- Python `container.get(k, dflt)`: only dicts have `.get`, so `none`
models the `AttributeError` raised on any other receiver. -/
def Json.get (j : Json) (k : String) (dflt : Json) : Option Json :=
  match j with
  | .obj fields => some ((fields.lookup k).getD dflt)
  | _ => none

/-- Python iteration `for t in v`: lists yield elements, strings yield
one-character strings, dicts yield their keys; `none` models the
`TypeError` on non-iterable values. -/
def pyIter (v : Json) : Option (List Json) :=
  match v with
  | .arr items => some items
  | .str s => some (s.toList.map (fun c => Json.str (String.mk [c])))
  | .obj fields => some (fields.map (fun kv => Json.str kv.1))
  | _ => none

/-- Map a fallible function over a list, failing on the first failure:
this is the Python loop that stops at the first raised exception. -/
def mapOption (f : α → Option β) : List α → Option (List β)
  | [] => some []
  | x :: xs => do
    let y ← f x
    let ys ← mapOption f xs
    some (y :: ys)

/-- Python `sep.join(v)`: requires an iterable of `str`; `none` models the
`TypeError` otherwise (elements of other types, or a non-iterable). -/
def pyJoin (sep : String) (v : Json) : Option String :=
  match v with
  | .arr items => do
    let strs ← mapOption (fun j => match j with | .str s => some s | _ => none) items
    some (String.intercalate sep strs)
  | .str s => some (String.intercalate sep (s.toList.map (fun c => String.mk [c])))
  | .obj fields => some (String.intercalate sep (fields.map (fun kv => kv.1)))
  | _ => none

/-- Boolean list-prefix test (Python substring search helper). -/
def isPrefixB : List Char → List Char → Bool
  | [], _ => true
  | _ :: _, [] => false
  | a :: xs, b :: ys => a == b && isPrefixB xs ys

/-- Boolean substring test on character lists. -/
def isSubstrB (needle hay : List Char) : Bool :=
  match hay with
  | [] => needle.isEmpty
  | _ :: t => isPrefixB needle hay || isSubstrB needle t

/-- Python `k in container` for a string `k`: key membership on dicts,
`==`-membership on lists, substring test on strings; `none` models the
`TypeError` raised on numbers, booleans and `None`. -/
def pyContains (container : Json) (k : String) : Option Bool :=
  match container with
  | .obj fields => some (fields.lookup k).isSome
  | .arr items => some (items.contains (Json.str k))
  | .str s => some (isSubstrB k.toList s.toList)
  | _ => none

/-- One row of the normalized table built by `to_df`. Field names follow
the row dict of the source; the `Type` column is `typeTag` because `Type`
is not a usable field name in Lean. `steps` is always a string (the
result of the join); the other cells carry whatever value `t.get`
returned. -/
structure Row where
  typeTag : String
  id : Json
  title : Json
  preconditions : Json
  steps : String
  expected_result : Json
  priority : Json
deriving Repr

/-- The row dict built for one item `t` inside `to_df`: each field via
`t.get` with the source's defaults, steps joined with newlines. `none`
models an exception escaping the loop body. -/
def rowOf (kind : String) (t : Json) : Option Row := do
  let idv ← t.get "id" (.str "")
  let titlev ← t.get "title" (.str "")
  let precv ← t.get "preconditions" (.str "")
  let stepsv ← t.get "steps" (.arr [])
  let stepsStr ← pyJoin "\n" stepsv
  let expv ← t.get "expected_result" (.str "")
  let priov ← t.get "priority" (.str "Medium")
  some { typeTag := kind, id := idv, title := titlev, preconditions := precv,
         steps := stepsStr, expected_result := expv, priority := priov }

/-- `to_df(items, kind)`: iterate the value and build one row per item,
in input order. `none` models a raised exception (no DataFrame). -/
def to_df (itemsVal : Json) (kind : String) : Option (List Row) := do
  let items ← pyIter itemsVal
  mapOption (rowOf kind) items

/-- Outcome of one generate-button press: the four failure conditions
named by the spec's taxonomy, the three ways the untyped Python code can
raise outside that taxonomy, and success carrying the master table. -/
inductive Outcome where
  | credentialMissing
  | emptyInput
  | requestFailure (msg : String)
  | parseFailure (raw : String)
  | typeError
  | attributeError
  | toDfError
  | success (table : List Row)
deriving Repr

/-- The handler body after the parse check has passed: the two `.get`
calls with list defaults, the two `to_df` calls, `pd.concat` (list
append), and the single write to `last_results`. The triple is
(outcome, last_results afterwards, whether the model client was
invoked — always true here). -/
def afterCheck (prev : Option (List Row)) (parsed : Json) :
    Outcome × Option (List Row) × Bool :=
  match parsed.get "positive" (.arr []) with
  | none => (.attributeError, prev, true)
  | some pv =>
    match parsed.get "negative" (.arr []) with
    | none => (.attributeError, prev, true)
    | some nv =>
      match to_df pv "Positive" with
      | none => (.toDfError, prev, true)
      | some rp =>
        match to_df nv "Negative" with
        | none => (.toDfError, prev, true)
        | some rn => (.success (rp ++ rn), some (rp ++ rn), true)

/-- The generate-button handler (lines 128–179 of the source). Inputs:
the previously stored `last_results` (`prev`), the effective API key
(`get_api_key()`, empty string when missing), the acceptance-criteria
text, and the result of `call_openai` — passed in as data because the
client is an external network call; the Bool of the returned triple
records whether that call was ever made. Each `st.stop()` becomes an
early return that leaves `prev` unchanged. The parse check is the
short-circuit `"positive" not in parsed and "negative" not in parsed`. -/
def generateHandler (prev : Option (List Row)) (key ac : String)
    (callResult : Except String String) : Outcome × Option (List Row) × Bool :=
  if key = "" then (.credentialMissing, prev, false)
  else if ac = "" then (.emptyInput, prev, false)
  else
    match callResult with
    | .error e => (.requestFailure e, prev, true)
    | .ok raw =>
      let parsed := extract_json raw
      match pyContains parsed "positive" with
      | none => (.typeError, prev, true)
      | some posIn =>
        if posIn then afterCheck prev parsed
        else
          match pyContains parsed "negative" with
          | none => (.typeError, prev, true)
          | some negIn =>
            if negIn then afterCheck prev parsed
            else (.parseFailure raw, prev, true)

/-! ## Theorems -/

/-- Claim C3: for every input text that is, in its entirety, well-formed
JSON encoding an object with `positive` and `negative` array fields,
`extract_json` returns that object with both keys and their array values
unchanged. -/
theorem C3_roundtrip : ∀ (text : String) (j : Json) (ps ns : List Json),
    json_loads text = some j →
    Json.lookup j "positive" = some (Json.arr ps) →
    Json.lookup j "negative" = some (Json.arr ns) →
    extract_json text = j ∧
    Json.lookup (extract_json text) "positive" = some (Json.arr ps) ∧
    Json.lookup (extract_json text) "negative" = some (Json.arr ns) := by
  intro text j ps ns hl hp hn
  have he : extract_json text = j := by unfold extract_json; rw [hl]
  exact ⟨he, by rw [he]; exact hp, by rw [he]; exact hn⟩

/-- Witness for C3 at a concrete fully-JSON input. -/
theorem C3_roundtrip_witness :
    extract_json "\x7b\"positive\": [1], \"negative\": []\x7d" =
      Json.obj [("positive", Json.arr [Json.num 1]), ("negative", Json.arr [])] ∧
    Json.lookup (extract_json "\x7b\"positive\": [1], \"negative\": []\x7d") "positive" =
      some (Json.arr [Json.num 1]) ∧
    Json.lookup (extract_json "\x7b\"positive\": [1], \"negative\": []\x7d") "negative" =
      some (Json.arr []) :=
  C3_roundtrip "\x7b\"positive\": [1], \"negative\": []\x7d"
    (Json.obj [("positive", Json.arr [Json.num 1]), ("negative", Json.arr [])])
    [Json.num 1] [] rfl rfl rfl

/-- Claim C4: when neither the whole text nor the brace-delimited span
parses as JSON, `extract_json` returns exactly the fallback object
carrying the original text verbatim. (`extract_json` is a total Lean
function, which embeds the source's bare `except` arms: it never raises
on any input string.) -/
theorem C4_fallback : ∀ text : String,
    json_loads text = none →
    (∀ sub, braceSpan text.toList = some sub → json_loads (String.mk sub) = none) →
    extract_json text = Json.obj [("raw_text", Json.str text)] := by
  intro text h1 h2
  cases hb : braceSpan text.data with
  | none => simp [extract_json, h1, hb]
  | some sub => simp [extract_json, h1, hb, h2 sub hb]

/-- Witness for C4 at the empty string. -/
theorem C4_fallback_witness :
    extract_json "" = Json.obj [("raw_text", Json.str "")] :=
  C4_fallback "" rfl (fun _ h => Option.noConfusion h)

/-- Claim C10 (implicit): `extract_json` on the text `"5"` returns the
non-mapping value 5, and on `"[1,2]"` the list, so the key-membership
success check downstream is applied to a non-mapping; on `5` Python `in`
raises `TypeError` (modelled by `pyContains` returning `none`), so the
pipeline ends in `typeError`, not in the `ParseFailure` halt. -/
theorem C10_nonmapping :
    extract_json "5" = Json.num 5 ∧
    extract_json "[1,2]" = Json.arr [Json.num 1, Json.num 2] ∧
    pyContains (extract_json "5") "positive" = none ∧
    generateHandler none "k" "x" (Except.ok "5") = (Outcome.typeError, none, true) :=
  ⟨rfl, rfl, rfl, rfl⟩

/-- Evaluation of `rowOf` on a dict item: every `.get` succeeds, so the
only possible failure is the join over the steps value. -/
theorem rowOf_obj (kind : String) (fields : List (String × Json)) :
    rowOf kind (Json.obj fields) =
      (pyJoin "\n" ((fields.lookup "steps").getD (Json.arr []))).map (fun stepsStr =>
        { typeTag := kind,
          id := (fields.lookup "id").getD (Json.str ""),
          title := (fields.lookup "title").getD (Json.str ""),
          preconditions := (fields.lookup "preconditions").getD (Json.str ""),
          steps := stepsStr,
          expected_result := (fields.lookup "expected_result").getD (Json.str ""),
          priority := (fields.lookup "priority").getD (Json.str "Medium") }) := by
  cases hpj : pyJoin "\n" ((fields.lookup "steps").getD (Json.arr [])) with
  | none => simp [rowOf, Json.get, hpj]
  | some s => simp [rowOf, Json.get, hpj]

/-- Counterexample to claim C1: an item whose `priority` value is none of
High, Medium, Low keeps that value in the normalized row — the code
`t.get("priority", "Medium")` only substitutes when the key is absent,
it never validates the value. -/
theorem C1_counterexample :
    (rowOf "Positive" (Json.obj [("priority", Json.str "Urgent")])).map Row.priority
      = some (Json.str "Urgent") ∧
    ¬ ("Urgent" = "High" ∨ "Urgent" = "Medium" ∨ "Urgent" = "Low") ∧
    Json.str "Urgent" ≠ Json.str "Medium" := by
  refine ⟨rfl, by decide, ?_⟩
  intro h
  injection h with h2
  exact absurd h2 (by decide)

/-- Claim C1 as amended: the normalized row's priority is the item's
`priority` value whenever the key is present — whatever that value is —
and `"Medium"` only when the key is absent. -/
theorem C1_priority : ∀ (kind : String) (fields : List (String × Json)) (row : Row),
    rowOf kind (Json.obj fields) = some row →
    row.priority = (fields.lookup "priority").getD (Json.str "Medium") := by
  intro kind fields row h
  rw [rowOf_obj] at h
  cases hpj : pyJoin "\n" ((fields.lookup "steps").getD (Json.arr [])) with
  | none => rw [hpj] at h; cases h
  | some s =>
    rw [hpj] at h
    simp only [Option.map_some', Option.some.injEq] at h
    rw [← h]

/-- Witness for the amended C1: present key with value High is kept, and
the lookup default evaluates as stated. -/
theorem C1_priority_witness :
    ∃ row, rowOf "Positive" (Json.obj [("priority", Json.str "High")]) = some row ∧
      row.priority = Json.str "High" :=
  ⟨{ typeTag := "Positive", id := Json.str "", title := Json.str "",
     preconditions := Json.str "", steps := "", expected_result := Json.str "",
     priority := Json.str "High" }, rfl,
   C1_priority "Positive" [("priority", Json.str "High")] _ rfl⟩

/-- `mapOption` of the string projection over a list of string values. -/
theorem mapOption_str_map : ∀ ss : List String,
    mapOption (fun j => match j with | Json.str s => some s | _ => none) (ss.map Json.str)
      = some ss := by
  intro ss
  induction ss with
  | nil => rfl
  | cons s ss ih => simp [mapOption, ih]

/-- `"\n".join` over a list of strings succeeds and intercalates. -/
theorem pyJoin_arr_str : ∀ ss : List String,
    pyJoin "\n" (Json.arr (ss.map Json.str)) = some (String.intercalate "\n" ss) := by
  intro ss
  simp [pyJoin, mapOption_str_map]

/-- Claim C6: the normalized row's steps string is the item's `steps`
sequence joined with newline separators, and empty when the key is
absent. -/
theorem C6_steps : ∀ (kind : String) (fields : List (String × Json)) (ss : List String),
    (fields.lookup "steps" = some (Json.arr (ss.map Json.str)) →
      ∃ row, rowOf kind (Json.obj fields) = some row ∧
        row.steps = String.intercalate "\n" ss) ∧
    (fields.lookup "steps" = none →
      ∃ row, rowOf kind (Json.obj fields) = some row ∧ row.steps = "") := by
  intro kind fields ss
  constructor
  · intro h
    refine ⟨{ typeTag := kind,
              id := (fields.lookup "id").getD (Json.str ""),
              title := (fields.lookup "title").getD (Json.str ""),
              preconditions := (fields.lookup "preconditions").getD (Json.str ""),
              steps := String.intercalate "\n" ss,
              expected_result := (fields.lookup "expected_result").getD (Json.str ""),
              priority := (fields.lookup "priority").getD (Json.str "Medium") }, ?_, rfl⟩
    rw [rowOf_obj, h]
    simp [pyJoin_arr_str]
  · intro h
    refine ⟨{ typeTag := kind,
              id := (fields.lookup "id").getD (Json.str ""),
              title := (fields.lookup "title").getD (Json.str ""),
              preconditions := (fields.lookup "preconditions").getD (Json.str ""),
              steps := "",
              expected_result := (fields.lookup "expected_result").getD (Json.str ""),
              priority := (fields.lookup "priority").getD (Json.str "Medium") }, ?_, rfl⟩
    rw [rowOf_obj, h]
    rfl

/-- Witness for C6: `steps = ["a","b"]` yields the literal string
`"a\nb"`. -/
theorem C6_steps_witness :
    ∃ row, rowOf "Positive" (Json.obj [("steps", Json.arr [Json.str "a", Json.str "b"])])
        = some row ∧ row.steps = "a\nb" := by
  obtain ⟨row, h1, h2⟩ :=
    (C6_steps "Positive" [("steps", Json.arr [Json.str "a", Json.str "b"])] ["a", "b"]).1 rfl
  exact ⟨row, h1, by rw [h2]; decide⟩

/-- Counterexample to claim C2: an extracted object carrying only the
`positive` key — `negative` absent — passes the check `"positive" not in
parsed and "negative" not in parsed`, is treated as a success, and a
normalized table is produced (the missing list defaults to empty). -/
theorem C2_counterexample :
    generateHandler none "k" "ac" (Except.ok "\x7b\"positive\": []\x7d")
      = (Outcome.success [], some [], true) ∧
    Json.lookup (extract_json "\x7b\"positive\": []\x7d") "negative" = none :=
  ⟨rfl, rfl⟩

/-- Claim C2 as amended: the parse check halts with ParseFailure exactly
when the extracted object lacks **both** keys; when at least one of the
two keys is present the attempt proceeds to normalization (the body
`afterCheck`), the missing list defaulting to empty. -/
theorem C2_parse_check : ∀ (prev : Option (List Row)) (key ac raw : String)
    (fields : List (String × Json)),
    key ≠ "" → ac ≠ "" → extract_json raw = Json.obj fields →
    ((fields.lookup "positive" = none ∧ fields.lookup "negative" = none →
       generateHandler prev key ac (Except.ok raw)
         = (Outcome.parseFailure raw, prev, true)) ∧
     ((fields.lookup "positive").isSome = true ∨ (fields.lookup "negative").isSome = true →
       generateHandler prev key ac (Except.ok raw) = afterCheck prev (Json.obj fields))) := by
  intro prev key ac raw fields hk hac he
  constructor
  · rintro ⟨hp, hn⟩
    simp [generateHandler, hk, hac, he, pyContains, hp, hn]
  · rintro (hp | hn)
    · simp [generateHandler, hk, hac, he, pyContains, hp]
    · rcases hq : (fields.lookup "positive").isSome with _ | _
      · simp [generateHandler, hk, hac, he, pyContains, hq, hn]
      · simp [generateHandler, hk, hac, he, pyContains, hq]

/-- Witness for the amended C2: the empty object halts with ParseFailure;
an object with only the `negative` key proceeds to normalization. -/
theorem C2_parse_check_witness :
    generateHandler none "k" "a" (Except.ok "\x7b\x7d")
      = (Outcome.parseFailure "\x7b\x7d", none, true) ∧
    generateHandler none "k" "a" (Except.ok "\x7b\"negative\": []\x7d")
      = afterCheck none (Json.obj [("negative", Json.arr [])]) :=
  ⟨(C2_parse_check none "k" "a" "\x7b\x7d" [] (by decide) (by decide) rfl).1 ⟨rfl, rfl⟩,
   (C2_parse_check none "k" "a" "\x7b\"negative\": []\x7d" [("negative", Json.arr [])]
      (by decide) (by decide) rfl).2 (Or.inr rfl)⟩

/-- Claim C8: with no API credential the attempt halts with
CredentialMissing and the model client is never invoked (third component
`false`); with a credential but empty acceptance-criteria text it halts
with EmptyInput, likewise before any network call. In both cases the
stored results are untouched. -/
theorem C8_guards : ∀ (prev : Option (List Row)) (key ac : String)
    (r : Except String String),
    generateHandler prev "" ac r = (Outcome.credentialMissing, prev, false) ∧
    (key ≠ "" → generateHandler prev key "" r = (Outcome.emptyInput, prev, false)) := by
  intro prev key ac r
  exact ⟨by simp [generateHandler], fun hk => by simp [generateHandler, hk]⟩

/-- Witness for C8 at concrete inputs. -/
theorem C8_guards_witness :
    generateHandler none "" "x" (Except.error "e")
      = (Outcome.credentialMissing, none, false) ∧
    generateHandler none "k" "" (Except.error "e")
      = (Outcome.emptyInput, none, false) :=
  ⟨(C8_guards none "k" "x" (Except.error "e")).1,
   (C8_guards none "k" "x" (Except.error "e")).2 (by decide)⟩

/-- The post-check body writes the stored table exactly when it reaches
the success outcome. -/
theorem afterCheck_state : ∀ (prev : Option (List Row)) (parsed : Json),
    (afterCheck prev parsed).2.1 = prev ∨
    ∃ t, (afterCheck prev parsed).1 = Outcome.success t ∧
         (afterCheck prev parsed).2.1 = some t := by
  intro prev parsed
  rcases h1 : parsed.get "positive" (Json.arr []) with _ | pv <;> simp [afterCheck, h1]
  rcases h2 : parsed.get "negative" (Json.arr []) with _ | nv <;> simp [h2]
  rcases h3 : to_df pv "Positive" with _ | rp <;> simp [h3]
  rcases h4 : to_df nv "Negative" with _ | rn <;> simp [h4]

/-- Claim C9: every failure outcome leaves the previously stored
`last_results` unchanged; the stored table is replaced exactly when the
attempt reaches the success outcome with its full normalized table —
never partially. -/
theorem C9_no_partial : ∀ (prev : Option (List Row)) (key ac : String)
    (r : Except String String),
    (generateHandler prev key ac r).2.1 = prev ∨
    ∃ t, (generateHandler prev key ac r).1 = Outcome.success t ∧
         (generateHandler prev key ac r).2.1 = some t := by
  intro prev key ac r
  by_cases hk : key = ""
  · simp [generateHandler, hk]
  · by_cases ha : ac = ""
    · simp [generateHandler, hk, ha]
    · cases r with
      | error e => simp [generateHandler, hk, ha]
      | ok raw =>
        rcases hp : pyContains (extract_json raw) "positive" with _ | posIn
        · simp [generateHandler, hk, ha, hp]
        · cases posIn with
          | true =>
            have hgen : generateHandler prev key ac (Except.ok raw)
                = afterCheck prev (extract_json raw) := by
              simp [generateHandler, hk, ha, hp]
            rw [hgen]
            exact afterCheck_state prev (extract_json raw)
          | false =>
            rcases hn : pyContains (extract_json raw) "negative" with _ | negIn
            · simp [generateHandler, hk, ha, hp, hn]
            · cases negIn with
              | true =>
                have hgen : generateHandler prev key ac (Except.ok raw)
                    = afterCheck prev (extract_json raw) := by
                  simp [generateHandler, hk, ha, hp, hn]
                rw [hgen]
                exact afterCheck_state prev (extract_json raw)
              | false => simp [generateHandler, hk, ha, hp, hn]

/-- A successful `mapOption` run yields one output per input. -/
theorem mapOption_length {α β : Type} : ∀ (f : α → Option β) (xs : List α) (ys : List β),
    mapOption f xs = some ys → ys.length = xs.length := by
  intro f xs
  induction xs with
  | nil =>
    intro ys h
    cases h
    rfl
  | cons x xs ih =>
    intro ys h
    simp only [mapOption, Option.bind_eq_bind, Option.bind_eq_some, Option.some.injEq] at h
    obtain ⟨y, _, ys', hys', rfl⟩ := h
    simp [ih ys' hys']

/-- A successful `mapOption` run is pointwise: the i-th output is the
image of the i-th input. -/
theorem mapOption_get {α β : Type} : ∀ (f : α → Option β) (xs : List α) (ys : List β),
    mapOption f xs = some ys → ∀ i : Nat, (xs[i]?).bind f = ys[i]? := by
  intro f xs
  induction xs with
  | nil =>
    intro ys h i
    cases h
    rfl
  | cons x xs ih =>
    intro ys h i
    simp only [mapOption, Option.bind_eq_bind, Option.bind_eq_some, Option.some.injEq] at h
    obtain ⟨y, hy, ys', hys', rfl⟩ := h
    cases i with
    | zero => simp [hy]
    | succ n => simpa using ih ys' hys' n

/-- Every row `rowOf` produces carries the kind it was given. -/
theorem rowOf_typeTag : ∀ (kind : String) (t : Json) (row : Row),
    rowOf kind t = some row → row.typeTag = kind := by
  intro kind t row h
  cases t with
  | obj fields =>
    rw [rowOf_obj] at h
    cases hpj : pyJoin "\n" ((fields.lookup "steps").getD (Json.arr [])) with
    | none => rw [hpj] at h; cases h
    | some s =>
      rw [hpj] at h
      simp only [Option.map_some', Option.some.injEq] at h
      rw [← h]
  | null => simp [rowOf, Json.get] at h
  | bool b => simp [rowOf, Json.get] at h
  | num n => simp [rowOf, Json.get] at h
  | str s => simp [rowOf, Json.get] at h
  | arr items => simp [rowOf, Json.get] at h

/-- All rows of a successful `mapOption (rowOf kind)` run carry `kind`. -/
theorem mapOption_rowOf_all : ∀ (kind : String) (items : List Json) (rows : List Row),
    mapOption (rowOf kind) items = some rows →
    rows.all (fun r => r.typeTag == kind) = true := by
  intro kind items
  induction items with
  | nil =>
    intro rows h
    cases h
    rfl
  | cons x xs ih =>
    intro rows h
    simp only [mapOption, Option.bind_eq_bind, Option.bind_eq_some, Option.some.injEq] at h
    obtain ⟨y, hy, ys', hys', rfl⟩ := h
    simp [List.all_cons, rowOf_typeTag kind x y hy, ih ys' hys']

/-- Claim C7: a success produces a master table of exactly
`len(positive) + len(negative)` rows — the concatenation of the Positive
table and the Negative table — with each group in the input order of its
source list and all Positive rows preceding all Negative rows. -/
theorem C7_table_shape : ∀ (ps ns : List Json) (rp rn : List Row),
    to_df (Json.arr ps) "Positive" = some rp →
    to_df (Json.arr ns) "Negative" = some rn →
    (rp ++ rn).length = ps.length + ns.length ∧
    (∀ i : Nat, (ps[i]?).bind (rowOf "Positive") = rp[i]?) ∧
    (∀ i : Nat, (ns[i]?).bind (rowOf "Negative") = rn[i]?) ∧
    rp.all (fun r => r.typeTag == "Positive") = true ∧
    rn.all (fun r => r.typeTag == "Negative") = true ∧
    (∀ i : Nat, i < rp.length → (rp ++ rn)[i]? = rp[i]?) ∧
    (∀ i : Nat, (rp ++ rn)[rp.length + i]? = rn[i]?) := by
  intro ps ns rp rn hp hn
  have hp' : mapOption (rowOf "Positive") ps = some rp := by
    simpa [to_df, pyIter] using hp
  have hn' : mapOption (rowOf "Negative") ns = some rn := by
    simpa [to_df, pyIter] using hn
  refine ⟨?_, mapOption_get _ _ _ hp', mapOption_get _ _ _ hn',
         mapOption_rowOf_all _ _ _ hp', mapOption_rowOf_all _ _ _ hn', ?_, ?_⟩
  · simp [List.length_append, mapOption_length _ _ _ hp', mapOption_length _ _ _ hn']
  · intro i hi
    rw [List.getElem?_append, if_pos hi]
  · intro i
    rw [List.getElem?_append, if_neg (by omega)]
    congr 1
    omega

/-- Witness for C7 with one item in each list. -/
theorem C7_table_shape_witness :
    (([{ typeTag := "Positive", id := Json.str "", title := Json.str "",
         preconditions := Json.str "", steps := "", expected_result := Json.str "",
         priority := Json.str "Medium" }] ++
      [{ typeTag := "Negative", id := Json.str "", title := Json.str "",
         preconditions := Json.str "", steps := "", expected_result := Json.str "",
         priority := Json.str "Medium" }] : List Row).length
        = ([Json.obj []] : List Json).length + ([Json.obj []] : List Json).length) ∧
    ([{ typeTag := "Positive", id := Json.str "", title := Json.str "",
        preconditions := Json.str "", steps := "", expected_result := Json.str "",
        priority := Json.str "Medium" }] : List Row).all
      (fun r => r.typeTag == "Positive") = true :=
  ⟨(C7_table_shape [Json.obj []] [Json.obj []] _ _ rfl rfl).1,
   (C7_table_shape [Json.obj []] [Json.obj []] _ _ rfl rfl).2.2.2.1⟩

/-- A list without closing braces has no last-closing-brace index. -/
theorem lastCloseIdx_none_of : ∀ cs : List Char,
    cs.all (fun c => c != '\x7d') = true → lastCloseIdx cs = none := by
  intro cs
  induction cs with
  | nil => intro _; rfl
  | cons c cs ih =>
    intro h
    simp only [List.all_cons, Bool.and_eq_true] at h
    have hc : ¬ (c = '\x7d') := by simpa using h.1
    simp [lastCloseIdx, ih h.2, hc]

/-- `firstBraceIdx` finds the position of the first opening brace. -/
theorem firstBraceIdx_eq_of : ∀ (cs : List Char) (i : Nat),
    (cs.take i).all (fun c => c != '\x7b') = true →
    cs[i]? = some '\x7b' →
    firstBraceIdx cs = some i := by
  intro cs
  induction cs with
  | nil => intro i _ h2; simp at h2
  | cons c cs ih =>
    intro i h1 h2
    cases i with
    | zero =>
      simp only [List.getElem?_cons_zero, Option.some.injEq] at h2
      simp [firstBraceIdx, h2]
    | succ n =>
      simp only [List.take_succ_cons, List.all_cons, Bool.and_eq_true] at h1
      have hc : ¬ (c = '\x7b') := by simpa using h1.1
      simp only [List.getElem?_cons_succ] at h2
      simp [firstBraceIdx, hc, ih n h1.2 h2]

/-- `lastCloseIdx` finds the position of the last closing brace. -/
theorem lastCloseIdx_eq_of : ∀ (cs : List Char) (j : Nat),
    cs[j]? = some '\x7d' →
    (cs.drop (j+1)).all (fun c => c != '\x7d') = true →
    lastCloseIdx cs = some j := by
  intro cs
  induction cs with
  | nil => intro j h1 _; simp at h1
  | cons c cs ih =>
    intro j h1 h2
    cases j with
    | zero =>
      simp only [List.getElem?_cons_zero, Option.some.injEq] at h1
      have hnone : lastCloseIdx cs = none := lastCloseIdx_none_of cs (by simpa using h2)
      simp [lastCloseIdx, hnone, h1]
    | succ n =>
      simp only [List.getElem?_cons_succ] at h1
      have h2' : (cs.drop (n+1)).all (fun c => c != '\x7d') = true := by simpa using h2
      simp [lastCloseIdx, ih n h1 h2']

/-- The regex model: when the first opening brace at `i` precedes the last
closing brace at `j`, the match is the span from `i` to `j` inclusive. -/
theorem braceSpan_eq_of : ∀ (cs : List Char) (i j : Nat),
    (cs.take i).all (fun c => c != '\x7b') = true →
    cs[i]? = some '\x7b' →
    cs[j]? = some '\x7d' →
    (cs.drop (j+1)).all (fun c => c != '\x7d') = true →
    i < j →
    braceSpan cs = some ((cs.drop i).take (j - i + 1)) := by
  intro cs i j h1 h2 h3 h4 hij
  simp [braceSpan, firstBraceIdx_eq_of cs i h1 h2, lastCloseIdx_eq_of cs j h3 h4, hij]

/-- Claim C5: when the whole text is not JSON, `extract_json` attempts the
substring from the first opening brace (index `i`) to the last closing
brace (index `j`, greedy) and returns the parsed object when that
substring is valid JSON. -/
theorem C5_brace_recovery : ∀ (text : String) (i j : Nat) (v : Json),
    json_loads text = none →
    (text.data.take i).all (fun c => c != '\x7b') = true →
    text.data[i]? = some '\x7b' →
    text.data[j]? = some '\x7d' →
    (text.data.drop (j+1)).all (fun c => c != '\x7d') = true →
    i < j →
    json_loads (String.mk ((text.data.drop i).take (j - i + 1))) = some v →
    extract_json text = v := by
  intro text i j v h0 h1 h2 h3 h4 hij h5
  have hb := braceSpan_eq_of text.data i j h1 h2 h3 h4 hij
  simp [extract_json, h0, hb, h5]

/-- Witness for C5: a JSON object embedded in prose is recovered; the
braces sit at indices 6 and 21 of the text. -/
theorem C5_brace_recovery_witness :
    extract_json "noise \x7b\"positive\": []\x7d end"
      = Json.obj [("positive", Json.arr [])] :=
  C5_brace_recovery "noise \x7b\"positive\": []\x7d end" 6 21
    (Json.obj [("positive", Json.arr [])])
    rfl (by decide) (by decide) (by decide) (by decide) (by decide) rfl
